import Mathlib

/-!
Verification of the core logic of the `progriv-app1` repository: the Google
Ads error-file parser (`app/error_parser.py`) and the campaign generator
(`app/generator.py`).  Python strings are embedded as `List Char`; every
function below is a direct shallow embedding of the corresponding Python
function, with Python's `str.strip`, `str.lower`, substring `in`,
`str.split(sep, 1)`, `str.rsplit(' ', 1)[0]`, slicing, and dict semantics
modelled explicitly.
-/

namespace Progriv

/-- Python strings, embedded as lists of characters. -/
abbrev PS := List Char

/-- Embed a Lean string literal as a Python string. -/
def lit (s : String) : PS := s.toList

/-- Python's `str.strip()` whitespace class (the ASCII part): space, tab,
newline, carriage return, vertical tab, form feed. -/
def isPySpace (c : Char) : Bool :=
  c.toNat == 32 || c.toNat == 9 || c.toNat == 10 || c.toNat == 13 ||
  c.toNat == 11 || c.toNat == 12

/-- Python `str.strip()`: drop leading and trailing whitespace. -/
def pyStrip (s : PS) : PS :=
  ((s.dropWhile isPySpace).reverse.dropWhile isPySpace).reverse

/-- Python `str.lower()` (ASCII case mapping). -/
def pyLower (s : PS) : PS := s.map Char.toLower

/-- Python substring test `pat in s`. -/
def pyIn (pat : PS) : PS → Bool
  | [] => pat.isEmpty
  | c :: rest => pat.isPrefixOf (c :: rest) || pyIn pat rest

/-- Python `str.replace(a, b)` for single-character patterns. -/
def pyReplace (s : PS) (a b : Char) : PS :=
  s.map (fun c => if c == a then b else c)

/-- Decimal rendering of a natural number, as a Python string. -/
def natStr (n : Nat) : PS := (toString n).toList

/-- Python `text.split(sep, 1)`: split at the first occurrence of `sep`,
returning the parts before and after it, or `none` if `sep` does not occur. -/
def splitFirst (sep : PS) : PS → Option (PS × PS)
  | [] => none
  | c :: rest =>
    if sep.isPrefixOf (c :: rest) then some ([], (c :: rest).drop sep.length)
    else
      match splitFirst sep rest with
      | some p => some (c :: p.1, p.2)
      | none => none

/-- Python `text.rsplit(' ', 1)[0]`: everything before the last space, or the
whole string when it contains no space. -/
def rsplitLast (cs : PS) : PS :=
  match cs.reverse.findIdx? (fun c => c == ' ') with
  | none => cs
  | some k => cs.take (cs.length - k - 1)

/-- Python dict insertion semantics for string-keyed dicts built in a loop:
an existing key keeps its position but takes the new value; a new key is
appended at the end. -/
def dictInsert (d : List (PS × PS)) (k v : PS) : List (PS × PS) :=
  match d with
  | [] => [(k, v)]
  | (k0, v0) :: rest => if k0 == k then (k0, v) :: rest else (k0, v0) :: dictInsert rest k v

/-! ### Basic lemmas about the string primitives -/

theorem toNat_ofNat_of_valid (n : Nat) (h : n.isValidChar) : (Char.ofNat n).toNat = n := by
  simp only [Char.ofNat, h, dite_true, Char.ofNatAux, Char.toNat, UInt32.toNat,
    BitVec.toNat_ofNatLt]

theorem isPySpace_toLower (c : Char) : isPySpace c.toLower = isPySpace c := by
  unfold Char.toLower
  by_cases h : c.toNat ≥ 65 ∧ c.toNat ≤ 90
  · have hv : (c.toNat + 32).isValidChar := by
      left; omega
    rw [if_pos h]
    simp only [isPySpace, toNat_ofNat_of_valid _ hv]
    have h65 : 65 ≤ c.toNat := h.1
    have hL : ((c.toNat + 32 == 32) || (c.toNat + 32 == 9) || (c.toNat + 32 == 10) ||
        (c.toNat + 32 == 13) || (c.toNat + 32 == 11) || (c.toNat + 32 == 12)) = false := by
      simp only [Bool.or_eq_false_iff, beq_eq_false_iff_ne, ne_eq]
      omega
    have hR : ((c.toNat == 32) || (c.toNat == 9) || (c.toNat == 10) ||
        (c.toNat == 13) || (c.toNat == 11) || (c.toNat == 12)) = false := by
      simp only [Bool.or_eq_false_iff, beq_eq_false_iff_ne, ne_eq]
      omega
    rw [hL, hR]
  · rw [if_neg h]

theorem isPySpace_comp_toLower : (isPySpace ∘ Char.toLower) = isPySpace := by
  funext c
  exact isPySpace_toLower c

theorem pyStrip_pyLower (s : PS) : pyStrip (pyLower s) = pyLower (pyStrip s) := by
  unfold pyStrip pyLower
  rw [List.dropWhile_map, isPySpace_comp_toLower, ← List.map_reverse,
    List.dropWhile_map, isPySpace_comp_toLower, ← List.map_reverse]

theorem length_pyLower (s : PS) : (pyLower s).length = s.length := by
  simp [pyLower]

theorem pyStrip_eq_nil_iff (s : PS) : pyStrip s = [] ↔ ∀ c ∈ s, isPySpace c = true := by
  unfold pyStrip
  rw [List.reverse_eq_nil_iff, List.dropWhile_eq_nil_iff]
  constructor
  · intro h c hc
    rw [← List.takeWhile_append_dropWhile (p := isPySpace) (l := s)] at hc
    rcases List.mem_append.mp hc with hc | hc
    · exact List.mem_takeWhile_imp hc
    · exact h c (List.mem_reverse.mpr hc)
  · intro h c hc
    exact h c ((List.dropWhile_sublist isPySpace).mem (List.mem_reverse.mp hc))

/-! ### Embedding of `app/error_parser.py` -/

/-- `ParsedError` from `error_parser.py`: one recognised error from the file. -/
structure ParsedError where
  type : PS
  value : PS
  reason : PS
  original_error : PS
  row_type : PS
deriving DecidableEq, Repr

/-- `ParseResult` from `error_parser.py`: the result of parsing a whole file. -/
structure ParseResult where
  errors : List ParsedError
  total_rows : Nat
  error_rows : Nat
  success_rows : Nat
  filename : PS
  keywords : List ParsedError
  headlines : List ParsedError
  descriptions : List ParsedError
  other_errors : List ParsedError
deriving DecidableEq, Repr

/-- A CSV data row as `csv.DictReader` yields it: a mapping from column name
to cell text.  A missing key models a cell that `row.get` reports as `None`. -/
abbrev Row := List (PS × PS)

/-- Python `(row.get(col) or "")`: the cell text, with both a missing key and
an empty cell giving the empty string. -/
def pyGet (r : Row) (k : PS) : PS := (r.lookup k).getD []

/-- Python `row.get(k1) or row.get(k2) or ... or ""`: the first present,
non-empty cell among the given keys, else the empty string. -/
def pyGetChain (r : Row) : List PS → PS
  | [] => []
  | k :: rest =>
    match r.lookup k with
    | some v => if v.isEmpty then pyGetChain r rest else v
    | none => pyGetChain r rest

/-- Python `row.get(k) or default`. -/
def pyGetOr (r : Row) (k dflt : PS) : PS :=
  match r.lookup k with
  | some v => if v.isEmpty then dflt else v
  | none => dflt

/-- `ERROR_INDICATORS` from `error_parser.py`. -/
def ERROR_INDICATORS : List PS :=
  [lit "error", lit "rejected", lit "disapproved", lit "policy violation",
   lit "not eligible", lit "violation", lit "invalid", lit "too long",
   lit "restricted", lit "trademark", lit "misleading", lit "unacceptable",
   lit "failed", lit "couldn't", lit "couldn't create", lit "not allowed",
   lit "limit exceeded", lit "character limit", lit "exceeds"]

/-- `SUCCESS_INDICATORS` from `error_parser.py`. -/
def SUCCESS_INDICATORS : List PS :=
  [lit "successfully", lit "success", lit "created", lit "added", lit "updated",
   lit "approved", lit "eligible", lit "active", lit "enabled"]

/-- The hard-failure words checked inside the success-indicator guard of
`_is_error_row`. -/
def hardFailWords : List PS :=
  [lit "error", lit "rejected", lit "disapproved", lit "violation"]

/-- `_normalize_header`: `header.strip().lower().replace(" ", "_").replace("-", "_")`. -/
def normalize_header (h : PS) : PS :=
  pyReplace (pyReplace (pyLower (pyStrip h)) ' ' '_') '-' '_'

/-- The priority list of `_find_error_column`. -/
def PRIORITY : List PS :=
  [lit "results", lit "result", lit "error", lit "error_details",
   lit "comment", lit "validation_error", lit "policy", lit "status"]

/-- The fallback substring vocabulary of `_find_error_column`. -/
def FALLBACK_WORDS : List PS :=
  [lit "error", lit "result", lit "comment", lit "policy", lit "validation"]

/-- The dict `{_normalize_header(h): h for h in headers}` (later duplicates
overwrite the value, insertion order of keys is kept). -/
def buildNormalized (headers : List PS) : List (PS × PS) :=
  headers.foldl (fun d h => dictInsert d (normalize_header h) h) []

/-- `_find_error_column`: priority search over normalized headers, then a
substring-containment fallback over the same dict in insertion order. -/
def find_error_column (headers : List PS) : Option PS :=
  let normalized := buildNormalized headers
  match PRIORITY.findSome? (fun k => normalized.lookup k) with
  | some orig => some orig
  | none =>
    normalized.findSome? (fun kv =>
      if FALLBACK_WORDS.any (fun w => pyIn w kv.1) then some kv.2 else none)

/-- `_is_error_row`: decide whether the error-cell text marks a failed row. -/
def is_error_row (error_text : PS) : Bool :=
  let tl := pyLower error_text
  if SUCCESS_INDICATORS.any (fun s => pyIn s tl) &&
     !(hardFailWords.any (fun e => pyIn e tl)) then false
  else if ERROR_INDICATORS.any (fun e => pyIn e tl) then true
  else (pyStrip tl).length > 0

/-- `_extract_reason`: strip, keep the segment after the first `": "` when
that segment is longer than 10 characters, then truncate to 200 characters
plus `"..."`. -/
def extract_reason (error_text : PS) : PS :=
  let t0 := pyStrip error_text
  let t :=
    match splitFirst (lit ": ") t0 with
    | some p => if p.2.length > 10 then p.2 else t0
    | none => t0
  if t.length > 200 then t.take 200 ++ lit "..." else t

/-- The row-wide policy words of `_extract_headline_errors` /
`_extract_description_errors`. -/
def generalWords : List PS :=
  [lit "policy", lit "trademark", lit "misleading", lit "restricted",
   lit "disapproved", lit "rejected"]

/-- `_extract_headline_errors`: scan `Headline 1..15`, attributing a headline
when it occurs literally in the error text, when `headline i` is named, or
when the error text carries a row-wide policy word. -/
def extract_headline_errors (row : Row) (error_text : PS) : List ParsedError :=
  let el := pyLower error_text
  let reason := extract_reason error_text
  (List.range' 1 15).filterMap (fun i =>
    let val := pyStrip (pyGet row (lit "Headline " ++ natStr i))
    if val.isEmpty then none
    else
      let is_specific := pyIn (pyLower val) el || pyIn (lit "headline " ++ natStr i) el
      let is_general := generalWords.any (fun w => pyIn w el)
      if is_specific || is_general then
        some ⟨lit "headline", val, reason, error_text, lit "Responsive search ad"⟩
      else none)

/-- `_extract_description_errors`: the same scan over `Description 1..4`. -/
def extract_description_errors (row : Row) (error_text : PS) : List ParsedError :=
  let el := pyLower error_text
  let reason := extract_reason error_text
  (List.range' 1 4).filterMap (fun i =>
    let val := pyStrip (pyGet row (lit "Description " ++ natStr i))
    if val.isEmpty then none
    else
      let is_specific := pyIn (pyLower val) el || pyIn (lit "description " ++ natStr i) el
      let is_general := generalWords.any (fun w => pyIn w el)
      if is_specific || is_general then
        some ⟨lit "description", val, reason, error_text, lit "Responsive search ad"⟩
      else none)

/-- The error-cell text of a row: `(row.get(error_col) or "").strip()` when an
error column was resolved, else the empty string. -/
def rowErrorText (error_col : Option PS) (row : Row) : PS :=
  match error_col with
  | some c => pyStrip (pyGet row c)
  | none => []

/-- The per-row-type extraction block of the loop in `parse_error_csv`: the
`ParsedError` records contributed by one row already counted as an error row. -/
def rowErrors (row : Row) (error_text : PS) : List ParsedError :=
  let row_type := pyStrip (pyGetChain row [lit "Row Type", lit "row type", lit "Type", lit "type"])
  let reason := extract_reason error_text
  let rtl := pyLower row_type
  if rtl == lit "keyword" || rtl == lit "keywords" then
    let kw := pyStrip (pyGetChain row [lit "Keyword", lit "keyword"])
    if kw.isEmpty then []
    else [⟨lit "keyword", kw, reason, error_text, row_type⟩]
  else if rtl == lit "responsive search ad" || rtl == lit "ad" || rtl == lit "text ad" then
    let hs := extract_headline_errors row error_text
    let ds := extract_description_errors row error_text
    if hs.isEmpty && ds.isEmpty then
      [⟨lit "ad", lit "[" ++ row_type ++ lit "] Ad error", reason, error_text, row_type⟩]
    else hs ++ ds
  else if rtl == lit "campaign" then
    [⟨lit "campaign", pyGetOr row (lit "Campaign") (lit "Unknown campaign"),
      reason, error_text, row_type⟩]
  else if rtl == lit "ad group" || rtl == lit "ad_group" then
    [⟨lit "ad_group", pyGetOr row (lit "Ad group") (lit "Unknown ad group"),
      reason, error_text, row_type⟩]
  else
    let kw := pyStrip (pyGetChain row [lit "Keyword", lit "keyword"])
    let rt := if row_type.isEmpty then lit "Unknown" else row_type
    if !kw.isEmpty then [⟨lit "keyword", kw, reason, error_text, rt⟩]
    else [⟨lit "other", error_text.take 100, reason, error_text, rt⟩]

/-- The per-row body of the loop in `parse_error_csv`: `none` when the row is
counted as a success, `some errs` (possibly empty) when it is counted as an
error row and contributes `errs` to the error list. -/
def classify_row (error_col : Option PS) (has_row_type : Bool) (row : Row) :
    Option (List ParsedError) :=
  let error_text := rowErrorText error_col row
  if error_text.isEmpty && !has_row_type then none
  else if !error_text.isEmpty && !(is_error_row error_text) then none
  else if error_text.isEmpty then none
  else some (rowErrors row error_text)

/-- The row loop of `parse_error_csv`, producing the error list and the
total / error / success row counters. -/
def parse_loop (ec : Option PS) (hrt : Bool) : List Row → List ParsedError × Nat × Nat × Nat
  | [] => ([], 0, 0, 0)
  | r :: rs =>
    let rest := parse_loop ec hrt rs
    match classify_row ec hrt r with
    | none => (rest.1, rest.2.1 + 1, rest.2.2.1, rest.2.2.2 + 1)
    | some es => (es ++ rest.1, rest.2.1 + 1, rest.2.2.1 + 1, rest.2.2.2)

/-- `any(_normalize_header(h) == "row_type" for h in headers)`. -/
def has_row_type_col (headers : List PS) : Bool :=
  headers.any (fun h => normalize_header h == lit "row_type")

/-- The in-memory part of `parse_error_csv`: given the header list and the
data rows of an opened file, produce the `ParseResult`. -/
def parse_rows (fn : PS) (headers : List PS) (rows : List Row) : ParseResult :=
  let ec := find_error_column headers
  let hrt := has_row_type_col headers
  let res := parse_loop ec hrt rows
  let all := res.1
  { errors := all
    total_rows := res.2.1
    error_rows := res.2.2.1
    success_rows := res.2.2.2
    filename := fn
    keywords := all.filter (fun e => e.type == lit "keyword")
    headlines := all.filter (fun e => e.type == lit "headline")
    descriptions := all.filter (fun e => e.type == lit "description")
    other_errors := all.filter (fun e =>
      !(e.type == lit "keyword" || e.type == lit "headline" || e.type == lit "description")) }

/-- `parse_error_csv` with its file access made explicit: `none` models a
missing file (the `os.path.isfile` guard raises `FileNotFoundError`); a
present file is the triple of name, header list, and data rows, and is
always parsed to a `ParseResult`. -/
def parse_error_csv (file : Option (PS × List PS × List Row)) : Except PS ParseResult :=
  match file with
  | none => Except.error (lit "FileNotFoundError")
  | some f => Except.ok (parse_rows f.1 f.2.1 f.2.2)

/-- A submission dict produced by `errors_to_submission`. -/
structure SubmissionItem where
  type : PS
  value : PS
  reason : PS
  original_error : PS
  action : PS
deriving DecidableEq, Repr

/-- The submission dict built for one eligible `ParsedError`. -/
def mkSubmission (action : PS) (e : ParsedError) : SubmissionItem :=
  { type := e.type
    value := e.value
    reason := lit "Google Ads: " ++ e.reason
    original_error := e.original_error.take 500
    action := action }

/-- The eligibility test of `errors_to_submission`:
`error.type in ("keyword", "headline", "description")`. -/
def eligibleType (e : ParsedError) : Bool :=
  e.type == lit "keyword" || e.type == lit "headline" || e.type == lit "description"

/-- The deduplication key of `errors_to_submission`: `(error.type, error.value.lower())`. -/
def subKey (e : ParsedError) : PS × PS := (e.type, pyLower e.value)

/-- The loop of `errors_to_submission`, carrying the `seen` set of keys. -/
def errors_to_submission_go (action : PS) : List ParsedError → List (PS × PS) → List SubmissionItem
  | [], _ => []
  | e :: rest, seen =>
    if !eligibleType e then errors_to_submission_go action rest seen
    else if seen.contains (subKey e) then errors_to_submission_go action rest seen
    else mkSubmission action e :: errors_to_submission_go action rest (subKey e :: seen)

/-- `errors_to_submission`: filter to the three eligible kinds, deduplicate on
`(type, lowercased value)` keeping first occurrences, cap `original_error` at
500 characters, and prefix `reason` with the provenance marker. -/
def errors_to_submission (parsed : ParseResult) (action : PS) : List SubmissionItem :=
  errors_to_submission_go action parsed.errors []

/-! ### Embedding of `app/generator.py` -/

/-- Whether a keyword is denied: the loop body of `AdsGenerator.filter_keywords`
(`kw_lower = kw.lower().strip()`, then bidirectional substring containment
against the lowercased deny-list entries). -/
def isBannedKw (banned_lower : List PS) (kw : PS) : Bool :=
  let kl := pyStrip (pyLower kw)
  banned_lower.any (fun b => pyIn b kl || pyIn kl b)

/-- `AdsGenerator.filter_keywords`: partition the keyword list into
`(filtered, removed)`. -/
def filter_keywords (keywords banned : List PS) : List PS × List PS :=
  let bl := banned.map pyLower
  (keywords.filter (fun kw => !(isBannedKw bl kw)),
   keywords.filter (fun kw => isBannedKw bl kw))

/-- The forbidden promotional terms of `AdsGenerator.validate_headlines`. -/
def FORBIDDEN : List PS :=
  [lit "best", lit "cheap", lit "free", lit "#1", lit "guaranteed"]

/-- The per-headline normalisation of `AdsGenerator.validate_headlines`:
`h = h.strip()`, then `if len(h) > 30: h = h[:30].rsplit(' ', 1)[0]`. -/
def truncHeadline (h : PS) : PS :=
  let h1 := pyStrip h
  if h1.length > 30 then rsplitLast (h1.take 30) else h1

/-- The loop of `AdsGenerator.validate_headlines`, carrying the `seen` set of
lowercased accepted values. -/
def validate_headlines_go : List PS → List PS → List PS
  | [], _ => []
  | h :: rest, seen =>
    let h2 := truncHeadline h
    let hl := pyLower h2
    if seen.contains hl then validate_headlines_go rest seen
    else
      let has_banned := FORBIDDEN.any (fun f => pyIn f hl)
      if !has_banned && h2.length ≥ 5 then h2 :: validate_headlines_go rest (hl :: seen)
      else validate_headlines_go rest (hl :: seen)

/-- `AdsGenerator.validate_headlines`: trim, truncate over-long headlines at
the last space of their first 30 characters, drop duplicates (case
insensitive), forbidden terms and short results, cap at 8. -/
def validate_headlines (headlines : List PS) : List PS :=
  (validate_headlines_go headlines []).take 8

/-- The Campaign row built by `AdsGenerator.generate_csv`. -/
def build_campaign_row (campaign_name networks budget bid_strategy start_date end_date
    location language eu_political : PS) : Row :=
  [(lit "Campaign", campaign_name),
   (lit "Campaign status", lit "Enabled"),
   (lit "Campaign type", lit "Search"),
   (lit "Networks", networks),
   (lit "Budget", budget),
   (lit "Bid strategy type", bid_strategy),
   (lit "Start date", start_date),
   (lit "End date", end_date),
   (lit "Location", location),
   (lit "Language", language),
   (lit "EU political ads", eu_political)]

/-- The Ad-Group row built by `AdsGenerator.generate_csv`. -/
def build_ad_group_row (campaign_name ad_group_name : PS) : Row :=
  [(lit "Campaign", campaign_name),
   (lit "Ad group", ad_group_name),
   (lit "Ad group status", lit "Enabled")]

/-- One Keyword row built by `AdsGenerator.generate_csv`. -/
def build_keyword_row (campaign_name ad_group_name match_type kw : PS) : Row :=
  [(lit "Campaign", campaign_name),
   (lit "Ad group", ad_group_name),
   (lit "Keyword", kw),
   (lit "Keyword match type", match_type)]

/-- The final URL of the Ad row: `website_url` when it starts with `"http"`,
else `"https://" + website_url`. -/
def finalUrl (website_url : PS) : PS :=
  if (lit "http").isPrefixOf website_url then website_url else lit "https://" ++ website_url

/-- The Responsive Search Ad row built by `AdsGenerator.generate_csv`:
base fields plus `Headline i` for the first 8 headlines (each cut to 30
characters) and `Description i` for the first 2 descriptions (each cut to
90 characters). -/
def build_ad_row (campaign_name ad_group_name website_url : PS)
    (headlines descriptions : List PS) : Row :=
  [(lit "Campaign", campaign_name),
   (lit "Ad group", ad_group_name),
   (lit "Ad type", lit "Responsive search ad"),
   (lit "Ad status", lit "Enabled"),
   (lit "Final URL", finalUrl website_url)]
  ++ (List.enumFrom 1 (headlines.take 8)).map
      (fun p => (lit "Headline " ++ natStr p.1, p.2.take 30))
  ++ (List.enumFrom 1 (descriptions.take 2)).map
      (fun p => (lit "Description " ++ natStr p.1, p.2.take 90))

/-- The row-assembly section of `AdsGenerator.generate_csv`: one Campaign row,
one Ad-Group row, one Keyword row per keyword (capped at 10), one Ad row. -/
def build_rows (campaign_name ad_group_name networks budget bid_strategy start_date end_date
    location language eu_political match_type website_url : PS)
    (keywords headlines descriptions : List PS) : List Row :=
  [build_campaign_row campaign_name networks budget bid_strategy start_date end_date
     location language eu_political,
   build_ad_group_row campaign_name ad_group_name]
  ++ (keywords.take 10).map (build_keyword_row campaign_name ad_group_name match_type)
  ++ [build_ad_row campaign_name ad_group_name website_url headlines descriptions]

/-! ### Lemmas about the parse loop -/

theorem filter_partition_len (l : List ParsedError) :
    (l.filter (fun e => e.type == lit "keyword")).length
      + (l.filter (fun e => e.type == lit "headline")).length
      + (l.filter (fun e => e.type == lit "description")).length
      + (l.filter (fun e =>
          !(e.type == lit "keyword" || e.type == lit "headline" || e.type == lit "description"))).length
      = l.length := by
  induction l with
  | nil => rfl
  | cons e t ih =>
    simp only [List.filter_cons]
    cases hb1 : e.type == lit "keyword" <;>
      cases hb2 : e.type == lit "headline" <;>
        cases hb3 : e.type == lit "description" <;>
          simp_all [beq_iff_eq, lit] <;> omega

theorem parse_loop_counts (ec : Option PS) (hrt : Bool) (rows : List Row) :
    (parse_loop ec hrt rows).2.1
      = (parse_loop ec hrt rows).2.2.1 + (parse_loop ec hrt rows).2.2.2 := by
  induction rows with
  | nil => rfl
  | cons r rs ih =>
    simp only [parse_loop]
    cases classify_row ec hrt r <;> simp <;> omega

theorem parse_loop_error_count (ec : Option PS) (hrt : Bool) (rows : List Row) :
    (parse_loop ec hrt rows).2.2.1
      = rows.countP (fun r => (classify_row ec hrt r).isSome) := by
  induction rows with
  | nil => rfl
  | cons r rs ih =>
    simp only [parse_loop, List.countP_cons]
    cases classify_row ec hrt r <;> simp [ih]

/-! ### Claims -/

/-- C1: for every input file accepted by `parse_error_csv`, the returned
`ParseResult` satisfies
`len(keywords) + len(headlines) + len(descriptions) + len(other_errors) == len(errors)`
and `total_rows == error_rows + success_rows`. -/
theorem C1_partition_completeness (file : Option (PS × List PS × List Row)) (p : ParseResult)
    (h : parse_error_csv file = Except.ok p) :
    p.keywords.length + p.headlines.length + p.descriptions.length + p.other_errors.length
        = p.errors.length
      ∧ p.total_rows = p.error_rows + p.success_rows := by
  match file with
  | none => exact absurd h (by simp [parse_error_csv])
  | some f =>
    have hp : p = parse_rows f.1 f.2.1 f.2.2 := by
      simpa [parse_error_csv] using h.symm
    subst hp
    constructor
    · exact filter_partition_len _
    · exact parse_loop_counts _ _ _

/-- Closed instance of C1 at a concrete file. -/
theorem C1_witness :
    (parse_rows (lit "f.csv") [lit "Results"] [[(lit "Results", lit "rejected")]]).keywords.length
        + (parse_rows (lit "f.csv") [lit "Results"] [[(lit "Results", lit "rejected")]]).headlines.length
        + (parse_rows (lit "f.csv") [lit "Results"] [[(lit "Results", lit "rejected")]]).descriptions.length
        + (parse_rows (lit "f.csv") [lit "Results"] [[(lit "Results", lit "rejected")]]).other_errors.length
        = (parse_rows (lit "f.csv") [lit "Results"] [[(lit "Results", lit "rejected")]]).errors.length
      ∧ (parse_rows (lit "f.csv") [lit "Results"] [[(lit "Results", lit "rejected")]]).total_rows
        = (parse_rows (lit "f.csv") [lit "Results"] [[(lit "Results", lit "rejected")]]).error_rows
          + (parse_rows (lit "f.csv") [lit "Results"] [[(lit "Results", lit "rejected")]]).success_rows :=
  C1_partition_completeness
    (some (lit "f.csv", [lit "Results"], [[(lit "Results", lit "rejected")]]))
    (parse_rows (lit "f.csv") [lit "Results"] [[(lit "Results", lit "rejected")]]) rfl

/-- C10: `error_rows` counts rows classified as failures, not emitted
`ParsedError` records, and the two differ in both directions: a failure
`Keyword` row with an empty `Keyword` cell gives `error_rows = 1` with no
`ParsedError` at all, while one failure `Responsive search ad` row emits one
`ParsedError` per attributed headline. -/
theorem C10_error_rows_vs_records :
    (∀ (fn : PS) (headers : List PS) (rows : List Row),
        (parse_rows fn headers rows).error_rows
          = rows.countP (fun r =>
              (classify_row (find_error_column headers) (has_row_type_col headers) r).isSome))
      ∧ (parse_rows (lit "f") [lit "Results", lit "Row Type", lit "Keyword"]
          [[(lit "Results", lit "rejected"), (lit "Row Type", lit "Keyword"),
            (lit "Keyword", lit "")]]).error_rows = 1
      ∧ (parse_rows (lit "f") [lit "Results", lit "Row Type", lit "Keyword"]
          [[(lit "Results", lit "rejected"), (lit "Row Type", lit "Keyword"),
            (lit "Keyword", lit "")]]).errors = []
      ∧ (parse_rows (lit "f") [lit "Results", lit "Row Type", lit "Headline 1", lit "Headline 2"]
          [[(lit "Results", lit "Policy violation: trademark"),
            (lit "Row Type", lit "Responsive search ad"),
            (lit "Headline 1", lit "Nike Shoes"), (lit "Headline 2", lit "Great Deals")]]).error_rows = 1
      ∧ (parse_rows (lit "f") [lit "Results", lit "Row Type", lit "Headline 1", lit "Headline 2"]
          [[(lit "Results", lit "Policy violation: trademark"),
            (lit "Row Type", lit "Responsive search ad"),
            (lit "Headline 1", lit "Nike Shoes"), (lit "Headline 2", lit "Great Deals")]]).errors.length
          = 2 := by
  refine ⟨fun fn headers rows => parse_loop_error_count _ _ rows, ?_, ?_, ?_, ?_⟩ <;> decide

/-- C4: for every row's error text (which the parse loop hands over already
trimmed), the row classifier decides in order: empty text is success;
non-empty text containing a success keyword and none of the hard-failure
keywords `error`, `rejected`, `disapproved`, `violation` is success;
otherwise text containing any failure keyword is failure; otherwise any
remaining non-empty text is treated as failure. -/
theorem C4_row_classifier (t : PS) (h : pyStrip t = t) :
    is_error_row t =
      if t.isEmpty then false
      else if SUCCESS_INDICATORS.any (fun s => pyIn s (pyLower t)) &&
              !(hardFailWords.any (fun e => pyIn e (pyLower t))) then false
      else if ERROR_INDICATORS.any (fun e => pyIn e (pyLower t)) then true
      else true := by
  cases t with
  | nil => decide
  | cons c cs =>
    have hl : 0 < (pyStrip (pyLower (c :: cs))).length := by
      rw [pyStrip_pyLower, h, length_pyLower]
      simp
    simp only [is_error_row, List.isEmpty_cons, if_false]
    cases hb1 : SUCCESS_INDICATORS.any (fun s => pyIn s (pyLower (c :: cs))) &&
        !(hardFailWords.any (fun e => pyIn e (pyLower (c :: cs)))) <;>
      cases hb2 : ERROR_INDICATORS.any (fun e => pyIn e (pyLower (c :: cs))) <;>
        simp [hb1, hb2, hl]

/-- Closed instance of C4 at a concrete trimmed text. -/
theorem C4_witness :
    pyStrip (lit "all good here") = lit "all good here"
      ∧ is_error_row (lit "all good here") =
          if (lit "all good here").isEmpty then false
          else if SUCCESS_INDICATORS.any (fun s => pyIn s (pyLower (lit "all good here"))) &&
                  !(hardFailWords.any (fun e => pyIn e (pyLower (lit "all good here")))) then false
          else if ERROR_INDICATORS.any (fun e => pyIn e (pyLower (lit "all good here"))) then true
          else true :=
  ⟨by decide, C4_row_classifier (lit "all good here") (by decide)⟩

/-! ### C6: reason length -/

theorem extract_reason_length_le (s : PS) : (extract_reason s).length ≤ 203 := by
  simp only [extract_reason]
  split
  · rename_i hgt
    have h3 : (lit "...").length = 3 := rfl
    simp only [List.length_append, List.length_take]
    omega
  · rename_i hle
    omega

theorem mem_extract_headline (row : Row) (et : PS) (e : ParsedError)
    (h : e ∈ extract_headline_errors row et) :
    e.reason = extract_reason et ∧ e.original_error = et := by
  simp only [extract_headline_errors, List.mem_filterMap] at h
  obtain ⟨i, _, hi⟩ := h
  split at hi
  · exact absurd hi (by simp)
  · split at hi
    · obtain rfl := Option.some.inj hi
      exact ⟨rfl, rfl⟩
    · exact absurd hi (by simp)

theorem mem_extract_description (row : Row) (et : PS) (e : ParsedError)
    (h : e ∈ extract_description_errors row et) :
    e.reason = extract_reason et ∧ e.original_error = et := by
  simp only [extract_description_errors, List.mem_filterMap] at h
  obtain ⟨i, _, hi⟩ := h
  split at hi
  · exact absurd hi (by simp)
  · split at hi
    · obtain rfl := Option.some.inj hi
      exact ⟨rfl, rfl⟩
    · exact absurd hi (by simp)

theorem mem_rowErrors (r : Row) (et : PS) (e : ParsedError) (he : e ∈ rowErrors r et) :
    e.reason = extract_reason et ∧ e.original_error = et := by
  simp only [rowErrors] at he
  split at he
  · split at he
    · exact absurd he (by simp)
    · obtain rfl := List.mem_singleton.mp he
      exact ⟨rfl, rfl⟩
  · split at he
    · split at he
      · obtain rfl := List.mem_singleton.mp he
        exact ⟨rfl, rfl⟩
      · rcases List.mem_append.mp he with h | h
        · exact mem_extract_headline _ _ _ h
        · exact mem_extract_description _ _ _ h
    · split at he
      · obtain rfl := List.mem_singleton.mp he
        exact ⟨rfl, rfl⟩
      · split at he
        · obtain rfl := List.mem_singleton.mp he
          exact ⟨rfl, rfl⟩
        · split at he
          · obtain rfl := List.mem_singleton.mp he
            exact ⟨rfl, rfl⟩
          · obtain rfl := List.mem_singleton.mp he
            exact ⟨rfl, rfl⟩

theorem classify_row_eq_some (ec : Option PS) (hrt : Bool) (r : Row) (l : List ParsedError)
    (hc : classify_row ec hrt r = some l) : l = rowErrors r (rowErrorText ec r) := by
  simp only [classify_row] at hc
  split at hc
  · exact absurd hc (by simp)
  · split at hc
    · exact absurd hc (by simp)
    · split at hc
      · exact absurd hc (by simp)
      · exact (Option.some.inj hc).symm

theorem classify_row_reason (ec : Option PS) (hrt : Bool) (r : Row) (l : List ParsedError)
    (hc : classify_row ec hrt r = some l) (e : ParsedError) (he : e ∈ l) :
    e.reason = extract_reason e.original_error := by
  obtain rfl := classify_row_eq_some ec hrt r l hc
  obtain ⟨h1, h2⟩ := mem_rowErrors _ _ _ he
  rw [h1, h2]

theorem mem_parse_loop (ec : Option PS) (hrt : Bool) (rows : List Row) (e : ParsedError)
    (he : e ∈ (parse_loop ec hrt rows).1) :
    ∃ r ∈ rows, ∃ l, classify_row ec hrt r = some l ∧ e ∈ l := by
  induction rows with
  | nil => exact absurd he (by simp [parse_loop])
  | cons r rs ih =>
    simp only [parse_loop] at he
    rcases hcr : classify_row ec hrt r with _ | es
    · rw [hcr] at he
      obtain ⟨r0, hr0, hrest⟩ := ih he
      exact ⟨r0, List.mem_cons_of_mem _ hr0, hrest⟩
    · rw [hcr] at he
      rcases List.mem_append.mp he with h | h
      · exact ⟨r, List.mem_cons_self _ _, es, hcr, h⟩
      · obtain ⟨r0, hr0, hrest⟩ := ih h
        exact ⟨r0, List.mem_cons_of_mem _ hr0, hrest⟩

/-- C6 fails as stated: a keyword row whose 201-character error text contains
no colon produces a `ParsedError` whose reason has 203 characters (the first
200 plus a 3-character ellipsis marker), exceeding the claimed 200-character
bound. -/
theorem C6_counterexample :
    ((parse_rows (lit "f") [lit "Results", lit "Row Type", lit "Keyword"]
        [[(lit "Results", List.replicate 201 'a'), (lit "Row Type", lit "Keyword"),
          (lit "Keyword", lit "gym")]]).errors.map (fun e => e.reason.length)) = [203] := by
  set_option maxRecDepth 100000 in decide

/-- C6 amended: every `ParsedError` produced by `parse_error_csv` has a
reason of at most 203 characters, obtained from the error text by trimming,
keeping only the segment after the first colon-and-space when that trailing
segment exceeds 10 characters, then, when the result exceeds 200 characters,
truncating to the first 200 characters and appending a 3-character ellipsis
marker. -/
theorem C6_amended (fn : PS) (headers : List PS) (rows : List Row) (e : ParsedError)
    (he : e ∈ (parse_rows fn headers rows).errors) :
    e.reason = extract_reason e.original_error ∧ e.reason.length ≤ 203 := by
  obtain ⟨r, _, l, hc, hel⟩ := mem_parse_loop _ _ rows e he
  have h1 := classify_row_reason _ _ _ _ hc e hel
  exact ⟨h1, h1 ▸ extract_reason_length_le _⟩

/-- Closed instance of C6 amended at a concrete parsed error. -/
theorem C6_amended_witness :
    (⟨lit "other", lit "rejected", lit "rejected", lit "rejected", lit "Unknown"⟩ : ParsedError).reason
        = extract_reason
            (⟨lit "other", lit "rejected", lit "rejected", lit "rejected", lit "Unknown"⟩ : ParsedError).original_error
      ∧ (⟨lit "other", lit "rejected", lit "rejected", lit "rejected", lit "Unknown"⟩ : ParsedError).reason.length
        ≤ 203 :=
  C6_amended (lit "f") [lit "Results"] [[(lit "Results", lit "rejected")]] _ (by decide)

/-! ### C8: failure behaviour of parse_error_csv -/

/-- C8 fails as stated: a present file whose headers contain no resolvable
error column is still parsed successfully instead of failing fast. -/
theorem C8_counterexample :
    find_error_column [lit "Foo"] = none
      ∧ (parse_error_csv (some (lit "f.csv", [lit "Foo"], [[(lit "Foo", lit "hello")]]))).isOk
        = true := by
  decide

/-- C8 amended: `parse_error_csv` fails fast, before any rows are processed,
exactly when the input file is missing; a file with no resolvable
error-column header is still processed (via the Row-Type fallback, with rows
lacking error text counted as successes), and for every present file the
function returns a result and never raises. -/
theorem C8_amended :
    (parse_error_csv none).isOk = false
      ∧ ∀ f : PS × List PS × List Row, (parse_error_csv (some f)).isOk = true :=
  ⟨rfl, fun _ => rfl⟩

/-! ### C2: submission building -/

theorem mem_of_contains {α : Type} [BEq α] [LawfulBEq α] {l : List α} {a : α}
    (h : l.contains a = true) : a ∈ l := by
  rw [List.contains] at h
  exact List.elem_iff.mp h

theorem not_mem_of_not_contains {α : Type} [BEq α] [LawfulBEq α] {l : List α} {a : α}
    (h : l.contains a = false) : a ∉ l := by
  intro hm
  have := List.elem_iff.mpr hm
  rw [List.contains] at h
  simp_all

theorem subKey_mkSubmission (action : PS) (e : ParsedError) :
    ((mkSubmission action e).type, pyLower (mkSubmission action e).value) = subKey e := rfl

theorem go_sublist (action : PS) (errs : List ParsedError) (seen : List (PS × PS)) :
    (errors_to_submission_go action errs seen).Sublist
      ((errs.filter eligibleType).map (mkSubmission action)) := by
  induction errs generalizing seen with
  | nil => simp [errors_to_submission_go]
  | cons e rest ih =>
    simp only [errors_to_submission_go, List.filter_cons]
    cases he : eligibleType e
    · simpa [he] using ih seen
    · simp only [he, Bool.not_true, Bool.false_eq_true, if_false, List.map_cons]
      by_cases hs : seen.contains (subKey e)
      · rw [if_pos hs]
        exact List.Sublist.cons _ (ih seen)
      · rw [if_neg hs]
        exact List.Sublist.cons₂ _ (ih _)

theorem go_nodup (action : PS) (errs : List ParsedError) (seen : List (PS × PS)) :
    ((errors_to_submission_go action errs seen).map (fun s => (s.type, pyLower s.value))).Nodup
      ∧ ∀ s ∈ errors_to_submission_go action errs seen, (s.type, pyLower s.value) ∉ seen := by
  induction errs generalizing seen with
  | nil => simp [errors_to_submission_go]
  | cons e rest ih =>
    simp only [errors_to_submission_go]
    cases he : eligibleType e
    · simpa using ih seen
    · simp only [Bool.not_true, Bool.false_eq_true, if_false]
      by_cases hs : seen.contains (subKey e)
      · rw [if_pos hs]
        exact ih seen
      · rw [if_neg hs]
        obtain ⟨ihn, ihs⟩ := ih (subKey e :: seen)
        have hnotin : subKey e ∉ seen := not_mem_of_not_contains (by simpa using hs)
        refine ⟨?_, ?_⟩
        · simp only [List.map_cons, List.nodup_cons, subKey_mkSubmission]
          refine ⟨?_, ihn⟩
          intro hmem
          obtain ⟨s, hsmem, hskey⟩ := List.mem_map.mp hmem
          exact (ihs s hsmem) (hskey ▸ List.mem_cons_self _ _)
        · intro s hsmem
          rcases List.mem_cons.mp hsmem with rfl | hsmem
          · rw [subKey_mkSubmission]
            exact hnotin
          · intro hin
            exact (ihs s hsmem) (List.mem_cons_of_mem _ hin)

theorem go_covers (action : PS) (errs : List ParsedError) (seen : List (PS × PS))
    (e : ParsedError) (he : e ∈ errs) (helig : eligibleType e = true) :
    subKey e ∈ seen
      ∨ ∃ s ∈ errors_to_submission_go action errs seen, (s.type, pyLower s.value) = subKey e := by
  induction errs generalizing seen with
  | nil => cases he
  | cons e0 rest ih =>
    simp only [errors_to_submission_go]
    rcases List.mem_cons.mp he with rfl | hmem
    · simp only [helig, Bool.not_true, Bool.false_eq_true, if_false]
      by_cases hs : seen.contains (subKey e)
      · exact Or.inl (mem_of_contains hs)
      · rw [if_neg hs]
        exact Or.inr ⟨mkSubmission action e, List.mem_cons_self _ _, subKey_mkSubmission action e⟩
    · cases he0 : eligibleType e0
      · simp only [he0, Bool.not_false, if_true]
        exact ih seen hmem
      · simp only [Bool.not_true, Bool.false_eq_true, if_false]
        by_cases hs : seen.contains (subKey e0)
        · rw [if_pos hs]
          exact ih seen hmem
        · rw [if_neg hs]
          rcases ih (subKey e0 :: seen) hmem with hin | ⟨s, hsmem, hskey⟩
          · rcases List.mem_cons.mp hin with heq | hin
            · exact Or.inr ⟨mkSubmission action e0, List.mem_cons_self _ _,
                (subKey_mkSubmission action e0).trans heq.symm⟩
            · exact Or.inl hin
          · exact Or.inr ⟨s, List.mem_cons_of_mem _ hsmem, hskey⟩

/-- C2: for every `ParseResult` and action tag, `errors_to_submission` returns
only items whose type is keyword, headline, or description, deduplicated on
the key (type, lowercased value) with the first occurrence kept and insertion
order preserved; each item's `original_error` is capped at 500 characters and
its reason is the error's reason prefixed with the fixed provenance marker
`"Google Ads: "`.  In particular, for input errors keyword "Gym",
keyword "gym", headline "Join Now", the batch has exactly 2 items, with
keyword "Gym" kept once. -/
theorem C2_submission (p : ParseResult) (action : PS) :
    (errors_to_submission p action).Sublist
        ((p.errors.filter eligibleType).map (mkSubmission action))
      ∧ ((errors_to_submission p action).map (fun s => (s.type, pyLower s.value))).Nodup
      ∧ (∀ e ∈ p.errors, eligibleType e = true →
          ∃ s ∈ errors_to_submission p action, (s.type, pyLower s.value) = subKey e)
      ∧ (∀ s ∈ errors_to_submission p action,
          (s.type = lit "keyword" ∨ s.type = lit "headline" ∨ s.type = lit "description")
            ∧ s.original_error.length ≤ 500
            ∧ ∃ e ∈ p.errors, s = mkSubmission action e ∧
                s.reason = lit "Google Ads: " ++ e.reason)
      ∧ errors_to_submission
          { errors := [⟨lit "keyword", lit "Gym", lit "r1", lit "o1", lit "Keyword"⟩,
                       ⟨lit "keyword", lit "gym", lit "r2", lit "o2", lit "Keyword"⟩,
                       ⟨lit "headline", lit "Join Now", lit "r3", lit "o3",
                        lit "Responsive search ad"⟩],
            total_rows := 3, error_rows := 3, success_rows := 0, filename := lit "f",
            keywords := [], headlines := [], descriptions := [], other_errors := [] }
          (lit "auto_ban")
        = [mkSubmission (lit "auto_ban")
             ⟨lit "keyword", lit "Gym", lit "r1", lit "o1", lit "Keyword"⟩,
           mkSubmission (lit "auto_ban")
             ⟨lit "headline", lit "Join Now", lit "r3", lit "o3",
              lit "Responsive search ad"⟩] := by
  refine ⟨go_sublist action p.errors [], (go_nodup action p.errors []).1, ?_, ?_, by decide⟩
  · intro e he helig
    rcases go_covers action p.errors [] e he helig with hin | h
    · cases hin
    · exact h
  · intro s hs
    have hmem : s ∈ (p.errors.filter eligibleType).map (mkSubmission action) :=
      (go_sublist action p.errors []).mem hs
    obtain ⟨e, hef, rfl⟩ := List.mem_map.mp hmem
    obtain ⟨hee, helig⟩ := List.mem_filter.mp hef
    refine ⟨?_, ?_, e, hee, rfl, rfl⟩
    · simp only [eligibleType, Bool.or_eq_true, beq_iff_eq] at helig
      show e.type = lit "keyword" ∨ e.type = lit "headline" ∨ e.type = lit "description"
      tauto
    · simp only [mkSubmission, List.length_take]
      omega

/-- Closed instance of C2 at a concrete batch: the first-occurrence key of
keyword "Gym" is present in the built submission list. -/
theorem C2_witness :
    ∃ s ∈ errors_to_submission
        { errors := [⟨lit "keyword", lit "Gym", lit "r1", lit "o1", lit "Keyword"⟩],
          total_rows := 1, error_rows := 1, success_rows := 0, filename := lit "f",
          keywords := [], headlines := [], descriptions := [], other_errors := [] }
        (lit "auto_ban"),
      (s.type, pyLower s.value)
        = subKey ⟨lit "keyword", lit "Gym", lit "r1", lit "o1", lit "Keyword"⟩ :=
  (C2_submission
      { errors := [⟨lit "keyword", lit "Gym", lit "r1", lit "o1", lit "Keyword"⟩],
        total_rows := 1, error_rows := 1, success_rows := 0, filename := lit "f",
        keywords := [], headlines := [], descriptions := [], other_errors := [] }
      (lit "auto_ban")).2.2.1
    ⟨lit "keyword", lit "Gym", lit "r1", lit "o1", lit "Keyword"⟩ (by decide) (by decide)

/-! ### C3: keyword filtering -/

/-- C3 fails as stated: the keyword `"yoga "` (with a trailing space) is
removed by the deny-list `["ayogab"]` because the code trims the keyword
before the containment test, although neither string contains the other
case-insensitively. -/
theorem C3_counterexample :
    (filter_keywords [lit "yoga "] [lit "ayogab"]).2 = [lit "yoga "]
      ∧ pyIn (pyLower (lit "ayogab")) (pyLower (lit "yoga ")) = false
      ∧ pyIn (pyLower (lit "yoga ")) (pyLower (lit "ayogab")) = false := by
  decide

/-- C3 amended: `filter_keywords` removes a keyword if and only if, after
lowercasing both sides and additionally trimming the keyword, the keyword
contains some denied term or some denied term contains the keyword; the
deny-list `["yoga"]` removes candidates `"yoga classes"` and `"hot yoga"`,
and the deny-list `["extreme yoga studio"]` removes candidate `"yoga"`. -/
theorem C3_amended (kws banned : List PS) (kw : PS) (hmem : kw ∈ kws) :
    (kw ∈ (filter_keywords kws banned).2 ↔
        ∃ b ∈ banned, pyIn (pyLower b) (pyStrip (pyLower kw)) = true
          ∨ pyIn (pyStrip (pyLower kw)) (pyLower b) = true)
      ∧ (kw ∈ (filter_keywords kws banned).1 ↔
          ¬ ∃ b ∈ banned, pyIn (pyLower b) (pyStrip (pyLower kw)) = true
            ∨ pyIn (pyStrip (pyLower kw)) (pyLower b) = true)
      ∧ filter_keywords [lit "yoga classes", lit "hot yoga"] [lit "yoga"]
          = ([], [lit "yoga classes", lit "hot yoga"])
      ∧ filter_keywords [lit "yoga"] [lit "extreme yoga studio"] = ([], [lit "yoga"]) := by
  have hchar : isBannedKw (banned.map pyLower) kw = true ↔
      ∃ b ∈ banned, pyIn (pyLower b) (pyStrip (pyLower kw)) = true
        ∨ pyIn (pyStrip (pyLower kw)) (pyLower b) = true := by
    simp [isBannedKw, List.any_eq_true]
  refine ⟨?_, ?_, by decide, by decide⟩
  · rw [← hchar]
    simp [filter_keywords, List.mem_filter, hmem]
  · rw [← hchar]
    simp [filter_keywords, List.mem_filter, hmem]

/-- Closed instance of C3 amended: `"yoga classes"` is removed by the
deny-list `["yoga"]`. -/
theorem C3_witness :
    lit "yoga classes" ∈ (filter_keywords [lit "yoga classes"] [lit "yoga"]).2 :=
  (C3_amended [lit "yoga classes"] [lit "yoga"] (lit "yoga classes") (by decide)).1.mpr
    ⟨lit "yoga", by decide, Or.inl (by decide)⟩

/-! ### C7: headline validation -/

theorem rsplitLast_length_le (cs : PS) : (rsplitLast cs).length ≤ cs.length := by
  unfold rsplitLast
  split
  · exact Nat.le_refl _
  · simp only [List.length_take]
    omega

theorem truncHeadline_length_le (h : PS) : (truncHeadline h).length ≤ 30 := by
  simp only [truncHeadline]
  split
  · rename_i hgt
    refine (rsplitLast_length_le _).trans ?_
    simp only [List.length_take]
    omega
  · rename_i hle
    omega

theorem go_headline_props (hs : List PS) (seen : List PS) (h : PS)
    (hmem : h ∈ validate_headlines_go hs seen) :
    h.length ≤ 30 ∧ 5 ≤ h.length ∧ ∀ f ∈ FORBIDDEN, pyIn f (pyLower h) = false := by
  induction hs generalizing seen with
  | nil => cases hmem
  | cons h0 rest ih =>
    simp only [validate_headlines_go] at hmem
    split at hmem
    · exact ih seen hmem
    · split at hmem
      · rcases List.mem_cons.mp hmem with rfl | hmem
        · rename_i hcond
          obtain ⟨hnb, hlen⟩ := Bool.and_eq_true_iff.mp hcond
          refine ⟨truncHeadline_length_le h0, by simpa using hlen, ?_⟩
          intro f hf
          have hall := List.any_eq_false.mp (by simpa using hnb)
          simpa using hall f hf
        · exact ih _ hmem
      · exact ih _ hmem

/-- C7 fails as stated: the headline "Best Fitness Classes In Washington"
does not appear in the output at all (it is dropped for containing the
disallowed term "best"), while a spaceless 34-character headline is truncated
mid-word to exactly its first 30 characters. -/
theorem C7_counterexample :
    validate_headlines [lit "Best Fitness Classes In Washington",
        lit "Supercalifragilisticexpialidocious"]
      = [lit "Supercalifragilisticexpialidoc"] := by
  decide

/-- C7 amended: `validate_headlines` trims each headline and, if over 30
characters, keeps its first 30 characters with the trailing partial word
after the last space removed (mid-word when the first 30 characters contain
no space); every emitted headline has length between 5 and 30 and contains no
disallowed promotional term; "Best Fitness Classes In Washington" is
truncated at a word boundary to "Best Fitness Classes In" but is then dropped
for containing the disallowed term "best", so it does not appear in the
output. -/
theorem C7_amended :
    (∀ (hs : List PS) (h : PS), h ∈ validate_headlines hs →
        h.length ≤ 30 ∧ 5 ≤ h.length ∧ ∀ f ∈ FORBIDDEN, pyIn f (pyLower h) = false)
      ∧ truncHeadline (lit "Best Fitness Classes In Washington")
          = lit "Best Fitness Classes In"
      ∧ validate_headlines [lit "Best Fitness Classes In Washington"] = [] := by
  refine ⟨?_, by decide, by decide⟩
  intro hs h hmem
  exact go_headline_props hs [] h (List.take_subset 8 _ hmem)

/-- Closed instance of C7 amended at a concrete accepted headline. -/
theorem C7_witness :
    (lit "Join Our Gym").length ≤ 30 ∧ 5 ≤ (lit "Join Our Gym").length
      ∧ pyIn (lit "best") (pyLower (lit "Join Our Gym")) = false :=
  ⟨(C7_amended.1 [lit "Join Our Gym"] (lit "Join Our Gym") (by decide)).1,
   (C7_amended.1 [lit "Join Our Gym"] (lit "Join Our Gym") (by decide)).2.1,
   (C7_amended.1 [lit "Join Our Gym"] (lit "Join Our Gym") (by decide)).2.2 (lit "best")
     (by decide)⟩

/-! ### C9: error-column resolution -/

theorem lookup_dictInsert (d : List (PS × PS)) (k v k' : PS) :
    (dictInsert d k v).lookup k' = if k' = k then some v else d.lookup k' := by
  induction d with
  | nil =>
    simp only [dictInsert, List.lookup]
    by_cases h : k' = k
    · simp [h]
    · simp [h, beq_eq_false_iff_ne.mpr h, List.lookup]
  | cons kv rest ih =>
    obtain ⟨k0, v0⟩ := kv
    simp only [dictInsert]
    by_cases hk : k0 = k
    · subst hk
      simp only [beq_self_eq_true, if_true]
      by_cases h : k' = k0
      · simp [h, List.lookup]
      · simp [List.lookup, beq_eq_false_iff_ne.mpr h, h]
    · rw [if_neg (by simpa using hk)]
      by_cases h : k' = k0
      · subst h
        have hne : ¬(k' = k) := fun hh => hk (hh ▸ rfl)
        simp [List.lookup, hne]
      · simp only [List.lookup, beq_eq_false_iff_ne.mpr h]
        exact ih

theorem mem_dictInsert (d : List (PS × PS)) (k v : PS) (kv : PS × PS)
    (h : kv ∈ dictInsert d k v) : kv = (k, v) ∨ kv ∈ d := by
  induction d with
  | nil => simpa [dictInsert] using h
  | cons kv0 rest ih =>
    obtain ⟨k0, v0⟩ := kv0
    simp only [dictInsert] at h
    by_cases hk : k0 = k
    · subst hk
      rw [if_pos (by simp)] at h
      rcases List.mem_cons.mp h with rfl | h
      · exact Or.inl rfl
      · exact Or.inr (List.mem_cons_of_mem _ h)
    · rw [if_neg (by simpa using hk)] at h
      rcases List.mem_cons.mp h with rfl | h
      · exact Or.inr (List.mem_cons_self _ _)
      · rcases ih h with h | h
        · exact Or.inl h
        · exact Or.inr (List.mem_cons_of_mem _ h)

theorem lookup_mem (d : List (PS × PS)) (k v : PS) (h : d.lookup k = some v) : (k, v) ∈ d := by
  induction d with
  | nil => simp [List.lookup] at h
  | cons kv0 rest ih =>
    obtain ⟨k0, v0⟩ := kv0
    simp only [List.lookup] at h
    by_cases hk : k = k0
    · subst hk
      simp only [beq_self_eq_true] at h
      obtain rfl := Option.some.inj h
      exact List.mem_cons_self _ _
    · rw [beq_eq_false_iff_ne.mpr hk] at h
      exact List.mem_cons_of_mem _ (ih h)

theorem lookup_buildNormalized_aux (hs : List PS) (d : List (PS × PS)) (k : PS) :
    ((hs.foldl (fun d h => dictInsert d (normalize_header h) h) d).lookup k = none)
      ↔ (d.lookup k = none ∧ ∀ h ∈ hs, k ≠ normalize_header h) := by
  induction hs generalizing d with
  | nil => simp
  | cons h0 rest ih =>
    simp only [List.foldl_cons]
    rw [ih]
    rw [lookup_dictInsert]
    constructor
    · rintro ⟨hd, hall⟩
      by_cases hk : k = normalize_header h0
      · rw [if_pos hk] at hd
        exact absurd hd (by simp)
      · rw [if_neg hk] at hd
        refine ⟨hd, ?_⟩
        intro h hmem
        rcases List.mem_cons.mp hmem with rfl | hmem
        · exact hk
        · exact hall h hmem
    · rintro ⟨hd, hall⟩
      have hk : k ≠ normalize_header h0 := hall h0 (List.mem_cons_self _ _)
      rw [if_neg hk]
      exact ⟨hd, fun h hmem => hall h (List.mem_cons_of_mem _ hmem)⟩

theorem lookup_buildNormalized_none (hs : List PS) (k : PS) :
    ((buildNormalized hs).lookup k = none) ↔ ∀ h ∈ hs, k ≠ normalize_header h := by
  rw [buildNormalized, lookup_buildNormalized_aux]
  simp [List.lookup]

theorem mem_buildNormalized_aux (hs : List PS) (d : List (PS × PS)) (kv : PS × PS)
    (hmem : kv ∈ hs.foldl (fun d h => dictInsert d (normalize_header h) h) d) :
    kv ∈ d ∨ ∃ h ∈ hs, kv = (normalize_header h, h) := by
  induction hs generalizing d with
  | nil => exact Or.inl hmem
  | cons h0 rest ih =>
    simp only [List.foldl_cons] at hmem
    rcases ih _ hmem with hin | ⟨h, hh, rfl⟩
    · rcases mem_dictInsert _ _ _ _ hin with rfl | hin
      · exact Or.inr ⟨h0, List.mem_cons_self _ _, rfl⟩
      · exact Or.inl hin
    · exact Or.inr ⟨h, List.mem_cons_of_mem _ hh, rfl⟩

theorem mem_buildNormalized (hs : List PS) (kv : PS × PS) (hmem : kv ∈ buildNormalized hs) :
    ∃ h ∈ hs, kv = (normalize_header h, h) := by
  rcases mem_buildNormalized_aux hs [] kv hmem with hin | h
  · cases hin
  · exact h

theorem buildNormalized_key_exists (hs : List PS) (h : PS) (hmem : h ∈ hs) :
    ∃ v, (normalize_header h, v) ∈ buildNormalized hs := by
  rcases hv : (buildNormalized hs).lookup (normalize_header h) with _ | v
  · exact absurd ((lookup_buildNormalized_none hs _).mp hv h hmem) (by simp)
  · exact ⟨v, lookup_mem _ _ _ hv⟩

/-- C9 fails as stated: the normalized header `upload_status` contains the
priority-vocabulary word `status`, yet the resolver returns no-match because
its fallback vocabulary is only `error, result, comment, policy, validation`. -/
theorem C9_counterexample :
    pyIn (lit "status") (normalize_header (lit "Upload Status")) = true
      ∧ find_error_column [lit "Upload Status"] = none := by
  decide

/-- C9 amended: the resolver normalizes headers (trim, lowercase, space and
hyphen to underscore), returns the exact normalized match searching the
priority order results, result, error, error_details, comment,
validation_error, policy, status, and when no exact normalized match exists
returns some header whose normalized form contains one of the fallback words
error, result, comment, policy, validation; a header such as
"Upload Status" therefore does not resolve, while "Upload Errors" does; it
returns no-match exactly when no header qualifies either way. -/
theorem C9_amended :
    (∀ headers : List PS,
        find_error_column headers = none ↔
          ∀ h ∈ headers, normalize_header h ∉ PRIORITY
            ∧ ∀ w ∈ FALLBACK_WORDS, pyIn w (normalize_header h) = false)
      ∧ (∀ (headers : List PS) (h : PS), find_error_column headers = some h →
          h ∈ headers
            ∧ (normalize_header h ∈ PRIORITY
                ∨ ∃ w ∈ FALLBACK_WORDS, pyIn w (normalize_header h) = true))
      ∧ find_error_column [lit "Upload Status"] = none
      ∧ find_error_column [lit "Upload Errors"] = some (lit "Upload Errors")
      ∧ find_error_column [lit "Error", lit "Results"] = some (lit "Results") := by
  refine ⟨?_, ?_, by decide, by decide, by decide⟩
  · intro headers
    simp only [find_error_column]
    constructor
    · intro hnone
      rcases hp : PRIORITY.findSome? (fun k => (buildNormalized headers).lookup k) with _ | orig
      · rw [hp] at hnone
        simp only at hnone
        have hfb := List.findSome?_eq_none.mp hnone
        have hpr := List.findSome?_eq_none.mp hp
        intro h hmem
        constructor
        · intro hin
          have := (lookup_buildNormalized_none headers (normalize_header h)).mp (hpr _ hin)
          exact this h hmem rfl
        · intro w hw
          obtain ⟨v, hv⟩ := buildNormalized_key_exists headers h hmem
          have := hfb _ hv
          by_cases hc : FALLBACK_WORDS.any (fun w => pyIn w (normalize_header h)) = true
          · rw [if_pos hc] at this
            exact absurd this (by simp)
          · have hall := List.any_eq_false.mp (by simpa using hc)
            simpa using hall w hw
      · rw [hp] at hnone
        exact absurd hnone (by simp)
    · intro hall
      have hp : PRIORITY.findSome? (fun k => (buildNormalized headers).lookup k) = none := by
        rw [List.findSome?_eq_none]
        intro k hk
        rw [lookup_buildNormalized_none]
        intro h hmem heq
        exact (hall h hmem).1 (heq ▸ hk)
      rw [hp]
      simp only
      rw [List.findSome?_eq_none]
      intro kv hkv
      obtain ⟨h, hmem, rfl⟩ := mem_buildNormalized headers kv hkv
      have hc : FALLBACK_WORDS.any (fun w => pyIn w (normalize_header h)) = false := by
        rw [List.any_eq_false]
        intro w hw
        simp [(hall h hmem).2 w hw]
      simp [hc]
  · intro headers h hsome
    simp only [find_error_column] at hsome
    rcases hp : PRIORITY.findSome? (fun k => (buildNormalized headers).lookup k) with _ | orig
    · rw [hp] at hsome
      simp only at hsome
      obtain ⟨kv, hkv, hf⟩ := List.exists_of_findSome?_eq_some hsome
      obtain ⟨h0, hmem, rfl⟩ := mem_buildNormalized headers kv hkv
      by_cases hc : FALLBACK_WORDS.any (fun w => pyIn w (normalize_header h0)) = true
      · rw [if_pos hc] at hf
        obtain rfl := Option.some.inj hf
        obtain ⟨w, hw, hwin⟩ := List.any_eq_true.mp hc
        exact ⟨hmem, Or.inr ⟨w, hw, hwin⟩⟩
      · rw [if_neg hc] at hf
        exact absurd hf (by simp)
    · rw [hp] at hsome
      have horig : orig = h := Option.some.inj hsome
      subst horig
      obtain ⟨k, hk, hlook⟩ := List.exists_of_findSome?_eq_some hp
      have hpair := lookup_mem _ _ _ hlook
      obtain ⟨h0, hmem, heq⟩ := mem_buildNormalized headers _ hpair
      have hk1 : k = normalize_header h0 := congrArg Prod.fst heq
      have hk2 : orig = h0 := congrArg Prod.snd heq
      subst hk2
      exact ⟨hmem, Or.inl (hk1 ▸ hk)⟩

/-! ### C5: row assembly -/

theorem lookup_cons_ne {β : Type} (k k0 : PS) (v0 : β) (rest : List (PS × β))
    (h : (k == k0) = false) : ((k0, v0) :: rest).lookup k = rest.lookup k := by
  simp [List.lookup, h]

theorem lookup_cons_eq {β : Type} (k : PS) (v0 : β) (rest : List (PS × β)) :
    ((k, v0) :: rest).lookup k = some v0 := by
  simp [List.lookup]

theorem lookup_eq_none_of_keys {β : Type} (l : List (PS × β)) (k : PS)
    (h : ((l.map Prod.fst).all (fun k0 => !(k == k0))) = true) : l.lookup k = none := by
  induction l with
  | nil => rfl
  | cons p rest ih =>
    obtain ⟨k0, v0⟩ := p
    simp only [List.map_cons, List.all_cons, Bool.and_eq_true] at h
    rw [lookup_cons_ne _ _ _ _ (by simpa using h.1)]
    exact ih h.2

theorem lookup_eq_none_of_all {β : Type} (l : List (PS × β)) (k : PS)
    (h : ∀ p ∈ l, ¬(k = p.1)) : l.lookup k = none := by
  induction l with
  | nil => rfl
  | cons p rest ih =>
    obtain ⟨k0, v0⟩ := p
    rw [lookup_cons_ne _ _ _ _ (beq_eq_false_iff_ne.mpr (h (k0, v0) (List.mem_cons_self _ _)))]
    exact ih fun q hq => h q (List.mem_cons_of_mem _ hq)

theorem lookup_append_none {β : Type} (l1 l2 : List (PS × β)) (k : PS)
    (h1 : l1.lookup k = none) : (l1 ++ l2).lookup k = l2.lookup k := by
  induction l1 with
  | nil => simp
  | cons p rest ih =>
    obtain ⟨k0, v0⟩ := p
    cases hb : (k == k0)
    · rw [lookup_cons_ne _ _ _ _ hb] at h1
      rw [List.cons_append, lookup_cons_ne _ _ _ _ hb]
      exact ih h1
    · exfalso
      simp only [List.lookup, hb] at h1
      exact Option.noConfusion h1

theorem lookup_append_some {β : Type} (l1 l2 : List (PS × β)) (k : PS) (v : β)
    (h1 : l1.lookup k = some v) : (l1 ++ l2).lookup k = some v := by
  induction l1 with
  | nil => simp [List.lookup] at h1
  | cons p rest ih =>
    obtain ⟨k0, v0⟩ := p
    cases hb : (k == k0)
    · rw [lookup_cons_ne _ _ _ _ hb] at h1
      rw [List.cons_append, lookup_cons_ne _ _ _ _ hb]
      exact ih h1
    · simp only [List.lookup, hb] at h1 ⊢
      exact h1

theorem cons_ne_cons_of_head (c d : Char) (s w : PS) (h : c ≠ d) : c :: s ≠ d :: w := by
  intro he
  injection he with h1 h2
  exact h h1

theorem headline_map_lookup_none (hls : List PS) (c : Char) (s : PS) (hc : c ≠ 'H') :
    (((List.enumFrom 1 (hls.take 8)).map
        (fun p => (lit "Headline " ++ natStr p.1, p.2.take 30))).lookup (c :: s)) = none := by
  apply lookup_eq_none_of_all
  intro p hp
  obtain ⟨q, _, rfl⟩ := List.mem_map.mp hp
  exact cons_ne_cons_of_head c 'H' s (lit "eadline " ++ natStr q.1) hc

theorem description_map_lookup_none (dscs : List PS) (c : Char) (s : PS) (hc : c ≠ 'D') :
    (((List.enumFrom 1 (dscs.take 2)).map
        (fun p => (lit "Description " ++ natStr p.1, p.2.take 90))).lookup (c :: s)) = none := by
  apply lookup_eq_none_of_all
  intro p hp
  obtain ⟨q, _, rfl⟩ := List.mem_map.mp hp
  exact cons_ne_cons_of_head c 'D' s (lit "escription " ++ natStr q.1) hc

theorem ad_row_lookup_headline (cn agn url : PS) (hls dscs : List PS) (c : Char) (s : PS)
    (hcH : c ≠ 'H') (hcD : c ≠ 'D')
    (hbase : ([(lit "Campaign", cn), (lit "Ad group", agn),
        (lit "Ad type", lit "Responsive search ad"), (lit "Ad status", lit "Enabled"),
        (lit "Final URL", finalUrl url)] : Row).lookup (c :: s) = none) :
    (build_ad_row cn agn url hls dscs).lookup (c :: s) = none := by
  unfold build_ad_row
  rw [List.append_assoc, lookup_append_none _ _ _ hbase,
    lookup_append_none _ _ _ (headline_map_lookup_none hls c s hcH)]
  exact description_map_lookup_none dscs c s hcD

/-- C5: for every validated content, keyword list and configuration, the row
assembler emits exactly one Campaign row, one Ad-Group row, one Keyword row
per surviving keyword capped at 10, and one Ad row whose final URL is
scheme-prefixed when missing; no emitted row carries a `Row Type` or `Type`
column, and with 3 headlines the Ad row has Headline 1-3 populated and
Headline 4-15 empty. -/
theorem C5_row_assembly (cn agn nw bud bs sd ed loc lang eu mt url : PS)
    (kws hls dscs : List PS) (h3 : hls.length = 3) (i : Nat) (hi1 : 1 ≤ i) (hi15 : i ≤ 15) :
    (build_rows cn agn nw bud bs sd ed loc lang eu mt url kws hls dscs).length
        = 3 + min kws.length 10
      ∧ (∀ r ∈ build_rows cn agn nw bud bs sd ed loc lang eu mt url kws hls dscs,
          r.lookup (lit "Row Type") = none ∧ r.lookup (lit "Type") = none)
      ∧ (build_ad_row cn agn url hls dscs).lookup (lit "Final URL")
          = some (if (lit "http").isPrefixOf url then url else lit "https://" ++ url)
      ∧ (((build_ad_row cn agn url hls dscs).lookup (lit "Headline " ++ natStr i)).isSome
          = true ↔ i ≤ 3) := by
  refine ⟨?_, ?_, ?_, ?_⟩
  · simp only [build_rows, List.length_append, List.length_map, List.length_take,
      List.length_cons, List.length_nil]
    omega
  · intro r hr
    simp only [build_rows, List.append_assoc, List.mem_append, List.mem_cons,
      List.not_mem_nil, or_false, List.mem_singleton, List.mem_map] at hr
    rcases hr with (rfl | rfl) | ⟨kw, _, rfl⟩ | rfl
    · constructor <;>
        · apply lookup_eq_none_of_keys
          simp only [build_campaign_row, List.map_cons, List.map_nil]
          decide
    · constructor <;>
        · apply lookup_eq_none_of_keys
          simp only [build_ad_group_row, List.map_cons, List.map_nil]
          decide
    · constructor <;>
        · apply lookup_eq_none_of_keys
          simp only [build_keyword_row, List.map_cons, List.map_nil]
          decide
    · constructor
      · exact ad_row_lookup_headline cn agn url hls dscs 'R' (lit "ow Type")
          (by decide) (by decide)
          (by apply lookup_eq_none_of_keys
              simp only [List.map_cons, List.map_nil]
              decide)
      · exact ad_row_lookup_headline cn agn url hls dscs 'T' (lit "ype")
          (by decide) (by decide)
          (by apply lookup_eq_none_of_keys
              simp only [List.map_cons, List.map_nil]
              decide)
  · unfold build_ad_row
    rw [List.append_assoc]
    apply lookup_append_some
    rw [lookup_cons_ne _ _ _ _ (by decide), lookup_cons_ne _ _ _ _ (by decide),
      lookup_cons_ne _ _ _ _ (by decide), lookup_cons_ne _ _ _ _ (by decide)]
    exact lookup_cons_eq _ _ _
  · obtain ⟨a, b, c, rfl⟩ : ∃ a b c, hls = [a, b, c] := by
      match hls, h3 with
      | [a, b, c], _ => exact ⟨a, b, c, rfl⟩
    have hrow : build_ad_row cn agn url [a, b, c] dscs
        = [(lit "Campaign", cn), (lit "Ad group", agn),
           (lit "Ad type", lit "Responsive search ad"), (lit "Ad status", lit "Enabled"),
           (lit "Final URL", finalUrl url),
           (lit "Headline " ++ natStr 1, a.take 30),
           (lit "Headline " ++ natStr 2, b.take 30),
           (lit "Headline " ++ natStr 3, c.take 30)]
          ++ (List.enumFrom 1 (dscs.take 2)).map
              (fun p => (lit "Description " ++ natStr p.1, p.2.take 90)) := rfl
    rw [hrow]
    interval_cases i
    · rw [lookup_append_some _ _ _ (a.take 30) (by
        rw [lookup_cons_ne _ _ _ _ (by decide), lookup_cons_ne _ _ _ _ (by decide),
          lookup_cons_ne _ _ _ _ (by decide), lookup_cons_ne _ _ _ _ (by decide),
          lookup_cons_ne _ _ _ _ (by decide)]
        exact lookup_cons_eq _ _ _)]
      simp
    · rw [lookup_append_some _ _ _ (b.take 30) (by
        rw [lookup_cons_ne _ _ _ _ (by decide), lookup_cons_ne _ _ _ _ (by decide),
          lookup_cons_ne _ _ _ _ (by decide), lookup_cons_ne _ _ _ _ (by decide),
          lookup_cons_ne _ _ _ _ (by decide), lookup_cons_ne _ _ _ _ (by decide)]
        exact lookup_cons_eq _ _ _)]
      simp
    · rw [lookup_append_some _ _ _ (c.take 30) (by
        rw [lookup_cons_ne _ _ _ _ (by decide), lookup_cons_ne _ _ _ _ (by decide),
          lookup_cons_ne _ _ _ _ (by decide), lookup_cons_ne _ _ _ _ (by decide),
          lookup_cons_ne _ _ _ _ (by decide), lookup_cons_ne _ _ _ _ (by decide),
          lookup_cons_ne _ _ _ _ (by decide)]
        exact lookup_cons_eq _ _ _)]
      simp
    all_goals
      rw [lookup_append_none _ _ _ (by
          apply lookup_eq_none_of_keys
          simp only [List.map_cons, List.map_nil]
          decide),
        lookup_eq_none_of_all _ _ (by
          intro p hp
          obtain ⟨q, _, rfl⟩ := List.mem_map.mp hp
          exact cons_ne_cons_of_head 'H' 'D' _ (lit "escription " ++ natStr q.1) (by decide))]
      simp

/-- Closed instance of C5 at a concrete campaign with 2 keywords and 3
headlines. -/
theorem C5_witness :
    (build_rows (lit "C") (lit "G") (lit "N") (lit "B") (lit "BS") (lit "S") (lit "E")
        (lit "L") (lit "l") (lit "No") (lit "Broad") (lit "example.com")
        [lit "k1", lit "k2"] [lit "h1", lit "h2", lit "h3"] [lit "d1"]).length = 5
      ∧ (build_ad_row (lit "C") (lit "G") (lit "example.com")
            [lit "h1", lit "h2", lit "h3"] [lit "d1"]).lookup (lit "Final URL")
          = some (lit "https://example.com")
      ∧ (((build_ad_row (lit "C") (lit "G") (lit "example.com")
            [lit "h1", lit "h2", lit "h3"] [lit "d1"]).lookup
              (lit "Headline " ++ natStr 4)).isSome = true ↔ 4 ≤ 3) :=
  ⟨(C5_row_assembly (lit "C") (lit "G") (lit "N") (lit "B") (lit "BS") (lit "S") (lit "E")
      (lit "L") (lit "l") (lit "No") (lit "Broad") (lit "example.com")
      [lit "k1", lit "k2"] [lit "h1", lit "h2", lit "h3"] [lit "d1"]
      rfl 4 (by decide) (by decide)).1.trans (by decide),
   (C5_row_assembly (lit "C") (lit "G") (lit "N") (lit "B") (lit "BS") (lit "S") (lit "E")
      (lit "L") (lit "l") (lit "No") (lit "Broad") (lit "example.com")
      [lit "k1", lit "k2"] [lit "h1", lit "h2", lit "h3"] [lit "d1"]
      rfl 4 (by decide) (by decide)).2.2.1.trans (by decide),
   (C5_row_assembly (lit "C") (lit "G") (lit "N") (lit "B") (lit "BS") (lit "S") (lit "E")
      (lit "L") (lit "l") (lit "No") (lit "Broad") (lit "example.com")
      [lit "k1", lit "k2"] [lit "h1", lit "h2", lit "h3"] [lit "d1"]
      rfl 4 (by decide) (by decide)).2.2.2⟩

/-- Closed instance of C9 amended at a concrete header list with no
qualifying header. -/
theorem C9_witness :
    normalize_header (lit "Zzz") ∉ PRIORITY
      ∧ pyIn (lit "error") (normalize_header (lit "Zzz")) = false :=
  ⟨((C9_amended.1 [lit "Zzz"]).mp (by decide) (lit "Zzz") (by decide)).1,
   ((C9_amended.1 [lit "Zzz"]).mp (by decide) (lit "Zzz") (by decide)).2 (lit "error")
     (by decide)⟩

end Progriv
